import Mathlib

/-!
Verification of the share/embed panel controller (`assets/js/share-panel.js`).

The development shallowly embeds the module's state and its event handlers.
Browser primitives that the module calls (the WHATWG `URL` constructor,
`JSON.parse`, the clipboard promise, HTML `select` element semantics) are
modelled explicitly: `parseURLChars` is a simplified absolute-URL parser that
mirrors the structure the module relies on (scheme, host, pathname, query,
fragment), `select` elements are modelled with their option list and selected
index (assigning a value selects the first option carrying it, or clears the
selection when no option matches), and the asynchronous clipboard write is
modelled as a two-outcome boundary call.
-/

/-- Characters allowed in a URL scheme (letters, digits, plus, minus, dot). -/
def isSchemeChar (c : Char) : Bool :=
  c.isAlphanum || c == '+' || c == '-' || c == '.'

/-- Characters that may appear in the host part: everything up to the first
slash, question mark or number sign. -/
def isHostChar (c : Char) : Bool :=
  !(c == '/' || c == '?' || c == '#')

/-- Characters that may appear before the query or fragment delimiters.  This
is also the predicate behind the textual fallback `url.split(/[?#]/)[0]` of
`addEmbedParameter`. -/
def isPathChar (c : Char) : Bool :=
  !(c == '?' || c == '#')

/-- Predicate used to cut the query part off before the fragment. -/
def notHashChar (c : Char) : Bool :=
  !(c == '#')

/-- Parsed components of an absolute URL, mirroring the fields of the
browser's `URL` object that `share-panel.js` touches: `origin` is
`scheme ++ "://" ++ host`, and `search`/`hash` carry their leading
delimiter exactly as in the DOM API. -/
structure URLRec where
  scheme : List Char
  host : List Char
  pathname : List Char
  search : List Char
  hash : List Char
deriving DecidableEq

/-- Serialization of a parsed URL, as `URL.prototype.toString` renders the
components used by the module. -/
def serializeURL (r : URLRec) : List Char :=
  r.scheme ++ [':', '/', '/'] ++ r.host ++ r.pathname ++ r.search ++ r.hash

/-- Simplified model of the WHATWG `URL` constructor used by
`share-panel.js` (an external browser primitive): an absolute URL is a
nonempty scheme starting with a letter, the literal `://`, a nonempty host,
then pathname, query and fragment split at the first `?` and `#`.  Parsing
fails (`none`) exactly where the browser constructor would throw for the
inputs the module cares about: no scheme, or an empty host. -/
def parseURLChars (cs : List Char) : Option URLRec :=
  let scheme := cs.takeWhile isSchemeChar
  let rest := cs.dropWhile isSchemeChar
  if scheme ≠ [] ∧ scheme.headI.isAlpha ∧ rest.take 3 = [':', '/', '/'] then
    let rest2 := rest.drop 3
    let host := rest2.takeWhile isHostChar
    let rest3 := rest2.dropWhile isHostChar
    if host ≠ [] then
      some ⟨scheme, host,
        rest3.takeWhile isPathChar,
        (rest3.dropWhile isPathChar).takeWhile notHashChar,
        (rest3.dropWhile isPathChar).dropWhile notHashChar⟩
    else none
  else none

/-- The query string `?embed=true` that `addEmbedParameter` installs. -/
def embedQuery : List Char := '?' :: "embed=true".data

/-- Character-level translation of `addEmbedParameter` from
`share-panel.js`: parse the URL, clear its query and fragment, set the single
parameter `embed=true` and serialize; on parse failure fall back to cutting
the string at the first `?` or `#` and appending `?embed=true`. -/
def addEmbedParameterChars (cs : List Char) : List Char :=
  match parseURLChars cs with
  | some r => serializeURL { r with search := embedQuery, hash := [] }
  | none => cs.takeWhile isPathChar ++ embedQuery

/-- `addEmbedParameter(url)` of `share-panel.js` on strings. -/
def addEmbedParameter (url : String) : String :=
  ⟨addEmbedParameterChars url.data⟩

/-- Translation of the share-URL cleaning in `updateShareUrl`
(`share-panel.js` lines 226-231): `origin + pathname` of the parsed URL, or
the raw string when parsing throws. -/
def stripViewerState (url : String) : String :=
  match parseURLChars url.data with
  | some r => ⟨r.scheme ++ [':', '/', '/'] ++ r.host ++ r.pathname⟩
  | none => url

/-- The query string of a URL string: everything after the first `?`. -/
def queryString (s : String) : String :=
  ⟨(s.data.dropWhile (fun c => !(c == '?'))).tail⟩

/-- Translation of `normalizeDimension` from `share-panel.js`: append `px`
exactly when the value matches `^\d+$` (one or more decimal digits and
nothing else), otherwise return the value unchanged. -/
def normalizeDimension (value : String) : String :=
  if value.data ≠ [] ∧ value.data.all Char.isDigit then value ++ "px" else value

/-- One catalog entry `{url, title}` from the embedded stories JSON. -/
structure StoryRef where
  url : String
  title : String
deriving DecidableEq

/-- One `option` element of a `select` widget: its `value` attribute and its
`textContent` label. -/
structure OptionEl where
  value : String
  textContent : String
deriving DecidableEq

/-- An HTML `select` element: its option list and the index of the selected
option (`none` models `selectedIndex = -1`). -/
structure SelectEl where
  options : List OptionEl
  selectedIndex : Option Nat
deriving DecidableEq

/-- The `value` property of a `select`: the value of the selected option, or
the empty string when nothing is selected. -/
def SelectEl.value (sel : SelectEl) : String :=
  match sel.selectedIndex with
  | some i =>
    match sel.options[i]? with
    | some o => o.value
    | none => ""
  | none => ""

/-- Index of the first option carrying value `v`, as the HTML `value` setter
locates it. -/
def findOptionIdx (v : String) : List OptionEl → Option Nat
  | [] => none
  | o :: rest => if o.value == v then some 0 else (findOptionIdx v rest).map (· + 1)

/-- Assigning to the `value` property of a `select`: select the first option
with that value, or clear the selection when no option matches. -/
def SelectEl.setValue (sel : SelectEl) (v : String) : SelectEl :=
  { sel with selectedIndex := findOptionIdx v sel.options }

/-- The page-level inputs the module reads: `window.location` pieces, the
`og:title` meta element (when present, with its `content`), and
`document.title`. -/
structure PageEnv where
  locationHref : String
  locationOrigin : String
  locationPathname : String
  ogTitle : Option String
  documentTitle : String
deriving DecidableEq

/-- The module state of `share-panel.js`: the two state variables
(`currentStoryUrl`, `availableStories`) together with the DOM surfaces the
handlers read and write.  Each element that the module null-checks is an
`Option`; the two dimension inputs are plain strings because the module
accesses them unconditionally. -/
structure ControllerState where
  currentStoryUrl : String
  availableStories : List StoryRef
  shareStorySelect : Option SelectEl
  embedStorySelect : Option SelectEl
  shareUrlInput : Option String
  shareSiteUrlInput : Option String
  shareCopyLinkBtnDisabled : Option Bool
  embedCopyCodeBtnDisabled : Option Bool
  embedWidthInput : String
  embedHeightInput : String
  embedCodeTextarea : Option String
deriving DecidableEq

/-- The always-populated site URL of `updateShareUrl`: origin plus the first
path segment (project-pages base) or just a slash. -/
def siteBaseUrl (pg : PageEnv) : String :=
  let parts := (pg.locationPathname.splitOn "/").filter (fun p => p ≠ "")
  pg.locationOrigin ++ (match parts with
    | p :: _ => "/" ++ p ++ "/"
    | [] => "/")

/-- Translation of `updateShareUrl` from `share-panel.js`: always refresh the
site URL field; fill the story URL field with the cleaned current story URL
when one is selected, else blank it. -/
def updateShareUrl (pg : PageEnv) (st : ControllerState) : ControllerState :=
  { st with
    shareSiteUrlInput := st.shareSiteUrlInput.map (fun _ => siteBaseUrl pg),
    shareUrlInput := st.shareUrlInput.map (fun _ =>
      if st.currentStoryUrl ≠ "" then stripViewerState st.currentStoryUrl else "") }

/-- Translation of the dropdown branch of `getStoryTitle`: when the select
has a nonempty value, return the label of its selected option provided that
option exists and carries a nonempty value; otherwise yield nothing and let
the caller fall through. -/
def selectedOptionTitle (sel : SelectEl) : Option String :=
  if sel.value ≠ "" then
    match sel.selectedIndex with
    | some i =>
      match sel.options[i]? with
      | some o => if o.value ≠ "" then some o.textContent else none
      | none => none
    | none => none
  else none

/-- Translation of `getStoryTitle` from `share-panel.js`: the share-tab
dropdown, then the embed-tab dropdown, then a catalog lookup by the current
URL, then the `og:title` meta tag, then `document.title`, then the literal
fallback. -/
def getStoryTitle (pg : PageEnv) (st : ControllerState) : String :=
  match st.shareStorySelect.bind selectedOptionTitle with
  | some t => t
  | none =>
    match st.embedStorySelect.bind selectedOptionTitle with
    | some t => t
    | none =>
      match (if st.currentStoryUrl ≠ "" ∧ 0 < st.availableStories.length
             then st.availableStories.find? (fun s => s.url == st.currentStoryUrl)
             else none) with
      | some s => s.title
      | none =>
        match pg.ogTitle with
        | some t => t
        | none => if pg.documentTitle ≠ "" then pg.documentTitle else "Telar Story"

/-- Translation of `generateEmbedCode` from `share-panel.js`: empty result
when no story is selected, otherwise the iframe template over the normalized
dimensions (with defaults for blank fields), the embed URL and the resolved
title. -/
def generateEmbedCode (pg : PageEnv) (st : ControllerState) : String :=
  if st.currentStoryUrl = "" then ""
  else
    let width := if st.embedWidthInput.trim = "" then "100%" else st.embedWidthInput.trim
    let height := if st.embedHeightInput.trim = "" then "800" else st.embedHeightInput.trim
    let widthAttr := normalizeDimension width
    let heightAttr := normalizeDimension height
    let embedUrl := addEmbedParameter st.currentStoryUrl
    let storyTitle := getStoryTitle pg st
    "<iframe src=\"" ++ embedUrl ++ "\"\n  width=\"" ++ widthAttr ++
      "\"\n  height=\"" ++ heightAttr ++ "\"\n  title=\"" ++ storyTitle ++
      "\"\n  frameborder=\"0\">\n</iframe>"

/-- Translation of `updateEmbedCode`: write the generated code into the
textarea when that element exists. -/
def updateEmbedCode (pg : PageEnv) (st : ControllerState) : ControllerState :=
  { st with embedCodeTextarea := st.embedCodeTextarea.map (fun _ => generateEmbedCode pg st) }

/-- Translation of `handlePanelOpen` from `share-panel.js`: the catalog
(homepage) context is detected solely by the existence of the share-tab
selector; in that case the selection is cleared, both selectors are reset to
the placeholder, the derived fields are blanked and both copy buttons
disabled.  Otherwise the selection becomes the page's own URL.  Both branches
then refresh the share URL and the embed code. -/
def handlePanelOpen (pg : PageEnv) (st : ControllerState) : ControllerState :=
  let st1 :=
    if st.shareStorySelect.isSome then
      { st with
        currentStoryUrl := "",
        shareStorySelect := st.shareStorySelect.map (fun s => s.setValue ""),
        embedStorySelect := st.embedStorySelect.map (fun s => s.setValue ""),
        shareUrlInput := st.shareUrlInput.map (fun _ => ""),
        shareCopyLinkBtnDisabled := st.shareCopyLinkBtnDisabled.map (fun _ => true),
        embedCodeTextarea := st.embedCodeTextarea.map (fun _ => ""),
        embedCopyCodeBtnDisabled := st.embedCopyCodeBtnDisabled.map (fun _ => true) }
    else
      { st with currentStoryUrl := pg.locationHref }
  updateEmbedCode pg (updateShareUrl pg st1)

/-- The dropdown synchronisation step of `handleStoryChange`: copy the new
value to the sibling selector identified by the source element's id, when
that sibling exists. -/
def syncSelects (sourceId selectedValue : String)
    (shareSel embedSel : Option SelectEl) : Option SelectEl × Option SelectEl :=
  if sourceId = "share-story-select" then
    match embedSel with
    | some sel => (shareSel, some (sel.setValue selectedValue))
    | none => (shareSel, embedSel)
  else if sourceId = "embed-story-select" then
    match shareSel with
    | some sel => (some (sel.setValue selectedValue), embedSel)
    | none => (shareSel, embedSel)
  else (shareSel, embedSel)

/-- Translation of `handleStoryChange` from `share-panel.js`, taking the
`id` and `value` of the event target: store the selection, propagate it to
the sibling dropdown, set both copy buttons' disabled flags from whether the
selection is nonempty, then refresh the share URL and the embed code. -/
def handleStoryChange (sourceId selectedValue : String) (pg : PageEnv)
    (st : ControllerState) : ControllerState :=
  updateEmbedCode pg (updateShareUrl pg
    { st with
      currentStoryUrl := selectedValue,
      shareStorySelect :=
        (syncSelects sourceId selectedValue st.shareStorySelect st.embedStorySelect).1,
      embedStorySelect :=
        (syncSelects sourceId selectedValue st.shareStorySelect st.embedStorySelect).2,
      shareCopyLinkBtnDisabled :=
        st.shareCopyLinkBtnDisabled.map (fun _ => selectedValue == ""),
      embedCopyCodeBtnDisabled :=
        st.embedCopyCodeBtnDisabled.map (fun _ => selectedValue == "") })

/-- What the JS property access `presets[preset]` can yield on the object
literal of `handlePresetChange`: one of the seven own entries, a truthy value
inherited from `Object.prototype` (a key such as `constructor` — the entry
has no `width`/`height`, so both read as `undefined`), or `undefined` for
every other key. -/
inductive PresetLookup
  | own (wh : String × String)
  | inherited
  | absent
deriving DecidableEq

/-- The property keys the `presets` object literal inherits from
`Object.prototype`; looking any of them up yields a truthy function or
object. -/
def objectProtoKeys : List String :=
  ["constructor", "hasOwnProperty", "isPrototypeOf", "propertyIsEnumerable",
   "toLocaleString", "toString", "valueOf", "__proto__", "__defineGetter__",
   "__defineSetter__", "__lookupGetter__", "__lookupSetter__"]

/-- The lookup `presets[preset]` of `handlePresetChange` in `share-panel.js`:
the seven own entries of the fixed table, then — because the object literal
inherits from `Object.prototype` — a truthy inherited value for the prototype
property keys, and `undefined` (falsy) for everything else. -/
def presetTable (key : String) : PresetLookup :=
  if key = "canvas" then PresetLookup.own ("100%", "800")
  else if key = "moodle" then PresetLookup.own ("100%", "700")
  else if key = "wordpress" then PresetLookup.own ("100%", "600")
  else if key = "squarespace" then PresetLookup.own ("100%", "600")
  else if key = "wix" then PresetLookup.own ("100%", "550")
  else if key = "mobile" then PresetLookup.own ("375", "500")
  else if key = "fixed" then PresetLookup.own ("800", "600")
  else if key ∈ objectProtoKeys then PresetLookup.inherited
  else PresetLookup.absent

/-- Translation of `handlePresetChange` from `share-panel.js`: a truthy
lookup result overwrites both dimension inputs and refreshes the embed code —
with the preset pair for the seven table keys, and with the string
`undefined` (the DOM stringification of reading `width`/`height` off an
inherited function or object) for `Object.prototype` keys; a falsy lookup
does nothing. -/
def handlePresetChange (preset : String) (pg : PageEnv)
    (st : ControllerState) : ControllerState :=
  match presetTable preset with
  | PresetLookup.own wh => updateEmbedCode pg
      { st with embedWidthInput := wh.1, embedHeightInput := wh.2 }
  | PresetLookup.inherited => updateEmbedCode pg
      { st with embedWidthInput := "undefined", embedHeightInput := "undefined" }
  | PresetLookup.absent => st

/-- Rebuilding one selector in `populateStorySelectors`: clear the options,
insert the placeholder option (empty value, localized label), then one option
per catalog entry in order.  The first inserted option of the rebuilt list
becomes the selected one. -/
def populateOne (stories : List StoryRef) (placeholderLabel : String)
    (sel : SelectEl) : SelectEl :=
  let _ := sel
  ⟨⟨"", placeholderLabel⟩ :: stories.map (fun st => ⟨st.url, st.title⟩), some 0⟩

/-- Translation of `populateStorySelectors` from `share-panel.js`: with an
empty catalog it returns before touching any widget; otherwise it rebuilds
each existing selector.  The placeholder label resolution (localization
lookup with fallback) is passed in as `placeholderLabel`. -/
def populateStorySelectors (stories : List StoryRef) (placeholderLabel : String)
    (shareSel embedSel : Option SelectEl) : Option SelectEl × Option SelectEl :=
  if stories.length = 0 then (shareSel, embedSel)
  else (shareSel.map (populateOne stories placeholderLabel),
        embedSel.map (populateOne stories placeholderLabel))

/-- Translation of `loadAvailableStories` from `share-panel.js`.  `JSON.parse`
is a host primitive, so its outcome is passed in: `none` means no
`telar-stories-data` element on the page, `some none` means parsing threw
(the handler only logs a warning and leaves everything untouched), and
`some (some stories)` is a successful parse, after which the stories are
stored and the selectors populated.  The result is the new
(`availableStories`, share selector, embed selector) triple. -/
def loadAvailableStories (catalogData : Option (Option (List StoryRef)))
    (placeholderLabel : String) (availableStories : List StoryRef)
    (shareSel embedSel : Option SelectEl) :
    List StoryRef × Option SelectEl × Option SelectEl :=
  match catalogData with
  | none => (availableStories, shareSel, embedSel)
  | some none => (availableStories, shareSel, embedSel)
  | some (some stories) =>
    let selects := populateStorySelectors stories placeholderLabel shareSel embedSel
    (stories, selects.1, selects.2)

/-- The two ways the clipboard promise of `navigator.clipboard.writeText`
can settle. -/
inductive ClipboardOutcome
  | success
  | failure
deriving DecidableEq

/-- The observable effects of `copyToClipboard`: the success feedback, the
`console.error` log, and the manual-copy notice (`alert`). -/
structure CopyEffects where
  successFeedbackShown : Bool
  errorLogged : Bool
  manualCopyNoticeShown : Bool
deriving DecidableEq

/-- Translation of `copyToClipboard` from `share-panel.js`, with the
asynchronous clipboard write modelled as a two-outcome boundary call.  The
rejection handler is the `catch` continuation, so no exception escapes: it
logs the error and raises the manual-copy notice exactly when the text handed
in is nonempty. -/
def copyToClipboard (text : String) (outcome : ClipboardOutcome) : CopyEffects :=
  match outcome with
  | .success => ⟨true, false, false⟩
  | .failure => ⟨false, true, !(text == "")⟩

/-- `copyToClipboard` paired with the controller state it runs in: the source
function reads and writes none of the module state, so the state is returned
unchanged alongside the effects. -/
def copyToClipboardStep (st : ControllerState) (text : String)
    (outcome : ClipboardOutcome) : ControllerState × CopyEffects :=
  (st, copyToClipboard text outcome)

/-- Sample page environment used to instantiate the theorems at concrete
inputs. -/
def samplePage : PageEnv :=
  ⟨"https://example.org/telar/a/", "https://example.org", "/telar/a/", none, "Telar"⟩

/-- Sample catalog-context state (both selectors present, one story chosen)
used to instantiate the theorems at concrete inputs. -/
def sampleCatalogState : ControllerState :=
  ⟨"https://example.org/telar/a/",
   [⟨"https://example.org/telar/a/", "Story A"⟩],
   some ⟨[⟨"", "Select"⟩, ⟨"https://example.org/telar/a/", "Story A"⟩], some 1⟩,
   some ⟨[⟨"", "Select"⟩, ⟨"https://example.org/telar/a/", "Story A"⟩], some 0⟩,
   some "", some "", some false, some false, "800", "600", some ""⟩

/-- Sample single-story state (no share-tab selector, embed-tab selector
present) used to instantiate the theorems at concrete inputs. -/
def sampleSingleState : ControllerState :=
  ⟨"", [], none, some ⟨[⟨"", "Select"⟩], some 0⟩,
   some "", some "", some false, some false, "", "", some ""⟩

/-- Sample catalog-browsing state with no dropdown selection, used to
instantiate the title fallback chain at concrete inputs. -/
def sampleNoSelectState : ControllerState :=
  ⟨"https://example.org/telar/a/",
   [⟨"https://example.org/telar/a/", "Story A"⟩],
   none, none, none, none, none, none, "", "", none⟩

/-- Taking while a predicate holds runs through a block of satisfying
characters and stops at a failing one. -/
theorem takeWhile_append_stop {p : Char → Bool} {l₁ l₂ : List Char} {c : Char}
    (h₁ : ∀ a ∈ l₁, p a = true) (h₂ : p c = false) :
    (l₁ ++ c :: l₂).takeWhile p = l₁ := by
  induction l₁ with
  | nil => simp [List.takeWhile_cons, h₂]
  | cons a t ih =>
    have ha : p a = true := h₁ a (List.mem_cons_self a t)
    simp only [List.cons_append, List.takeWhile_cons, ha, if_true]
    rw [ih (fun b hb => h₁ b (List.mem_cons_of_mem a hb))]

/-- Dropping while a predicate holds runs through a block of satisfying
characters and stops at a failing one. -/
theorem dropWhile_append_stop {p : Char → Bool} {l₁ l₂ : List Char} {c : Char}
    (h₁ : ∀ a ∈ l₁, p a = true) (h₂ : p c = false) :
    (l₁ ++ c :: l₂).dropWhile p = c :: l₂ := by
  induction l₁ with
  | nil => simp [List.dropWhile_cons, h₂]
  | cons a t ih =>
    have ha : p a = true := h₁ a (List.mem_cons_self a t)
    simp only [List.cons_append, List.dropWhile_cons, ha, if_true]
    exact ih (fun b hb => h₁ b (List.mem_cons_of_mem a hb))

/-- The head of a `dropWhile` residue, when there is one, fails the
predicate. -/
theorem dropWhile_head_false (p : Char → Bool) (l : List Char) :
    l.dropWhile p = [] ∨ ∃ c t, l.dropWhile p = c :: t ∧ p c = false := by
  induction l with
  | nil => left; rfl
  | cons a t ih =>
    by_cases h : p a = true
    · rw [List.dropWhile_cons, if_pos h]; exact ih
    · right
      refine ⟨a, t, ?_, by simpa using h⟩
      rw [List.dropWhile_cons, if_neg h]

/-- Splitting a list at the first occurrence of a marker character is
unambiguous. -/
theorem append_cons_eq_of_not_mem {c : Char} :
    ∀ {x x' y y' : List Char}, x ++ c :: y = x' ++ c :: y' →
      c ∉ x → c ∉ x' → x = x' ∧ y = y' := by
  intro x
  induction x with
  | nil =>
    intro x' y y' h hx hx'
    cases x' with
    | nil => simpa using h
    | cons b u =>
      simp only [List.nil_append, List.cons_append, List.cons.injEq] at h
      exact absurd (h.1 ▸ List.mem_cons_self b u) hx'
  | cons a t ih =>
    intro x' y y' h hx hx'
    cases x' with
    | nil =>
      simp only [List.cons_append, List.nil_append, List.cons.injEq] at h
      exact absurd (h.1 ▸ List.mem_cons_self a t) hx
    | cons b u =>
      simp only [List.cons_append, List.cons.injEq] at h
      obtain ⟨rfl, h2⟩ := h
      have hx2 : c ∉ t := fun hm => hx (List.mem_cons_of_mem a hm)
      have hx2' : c ∉ u := fun hm => hx' (List.mem_cons_of_mem a hm)
      obtain ⟨rfl, rfl⟩ := ih h2 hx2 hx2'
      exact ⟨rfl, rfl⟩

/-- A character passes `isPathChar` exactly when it is neither the query nor
the fragment delimiter. -/
theorem isPathChar_iff (c : Char) : isPathChar c = true ↔ c ≠ '?' ∧ c ≠ '#' := by
  simp [isPathChar, not_or]

/-- Scheme characters are neither delimiters nor slashes. -/
theorem isSchemeChar_path (c : Char) (h : isSchemeChar c = true) :
    isPathChar c = true := by
  rw [isPathChar_iff]
  constructor <;> rintro rfl <;> exact absurd h (by decide)

/-- Host characters are in particular path characters. -/
theorem isHostChar_path (c : Char) (h : isHostChar c = true) :
    isPathChar c = true := by
  rw [isPathChar_iff]
  constructor <;> rintro rfl <;> exact absurd h (by decide)

/-- Structural description of a successful parse: the input is exactly the
serialization of the record, and every component satisfies its character
discipline.  The query part, when nonempty, starts with `?` and carries no
`#`; the fragment part, when nonempty, starts with `#`. -/
theorem parse_some_spec {cs : List Char} {r : URLRec}
    (h : parseURLChars cs = some r) :
    cs = serializeURL r ∧
    (∀ c ∈ r.scheme, isSchemeChar c = true) ∧ r.scheme ≠ [] ∧
    (∀ c ∈ r.host, isHostChar c = true) ∧ r.host ≠ [] ∧
    (∀ c ∈ r.pathname, isPathChar c = true) ∧
    (∀ c ∈ r.search, c ≠ '#') ∧
    (r.search = [] ∨ ∃ t, r.search = '?' :: t) ∧
    (r.hash = [] ∨ ∃ t, r.hash = '#' :: t) := by
  simp only [parseURLChars] at h
  split at h
  case isFalse => exact absurd h (by simp)
  case isTrue hA =>
    split at h
    case isFalse => exact absurd h (by simp)
    case isTrue hB =>
      obtain rfl : _ = r := Option.some.inj h
      simp only [serializeURL]
      refine ⟨?_, ?_, hA.1, ?_, hB, ?_, ?_, ?_, ?_⟩
      · have e1 : cs = cs.takeWhile isSchemeChar ++ cs.dropWhile isSchemeChar :=
          (List.takeWhile_append_dropWhile isSchemeChar cs).symm
        have e2 : cs.dropWhile isSchemeChar =
            [':', '/', '/'] ++ (cs.dropWhile isSchemeChar).drop 3 := by
          conv_lhs => rw [← List.take_append_drop 3 (cs.dropWhile isSchemeChar)]
          rw [hA.2.2]
        have e3 : (cs.dropWhile isSchemeChar).drop 3 =
            ((cs.dropWhile isSchemeChar).drop 3).takeWhile isHostChar ++
            ((cs.dropWhile isSchemeChar).drop 3).dropWhile isHostChar :=
          (List.takeWhile_append_dropWhile isHostChar ((cs.dropWhile isSchemeChar).drop 3)).symm
        set rest3 := ((cs.dropWhile isSchemeChar).drop 3).dropWhile isHostChar with hr3
        have e4 : rest3 = rest3.takeWhile isPathChar ++ rest3.dropWhile isPathChar :=
          (List.takeWhile_append_dropWhile isPathChar rest3).symm
        have e5 : rest3.dropWhile isPathChar =
            (rest3.dropWhile isPathChar).takeWhile notHashChar ++
            (rest3.dropWhile isPathChar).dropWhile notHashChar :=
          (List.takeWhile_append_dropWhile notHashChar (rest3.dropWhile isPathChar)).symm
        conv_lhs => rw [e1, e2, e3, e4, e5]
        simp
      · intro a ha
        exact List.mem_takeWhile_imp ha
      · intro a ha
        exact List.mem_takeWhile_imp ha
      · intro a ha
        exact List.mem_takeWhile_imp ha
      · intro a ha
        have := List.mem_takeWhile_imp ha
        simpa [notHashChar] using this
      · set rest3 := ((cs.dropWhile isSchemeChar).drop 3).dropWhile isHostChar with hr3
        rcases dropWhile_head_false isPathChar rest3 with h0 | ⟨e, t, het, hpe⟩
        · left; rw [h0]; rfl
        · have he : e = '?' ∨ e = '#' :=
            or_iff_not_imp_left.mpr (by simpa [isPathChar] using hpe)
          rcases he with rfl | rfl
          · right
            refine ⟨t.takeWhile notHashChar, ?_⟩
            rw [het, List.takeWhile_cons]
            simp [notHashChar]
          · left
            rw [het, List.takeWhile_cons]
            simp [notHashChar]
      · set rest3 := ((cs.dropWhile isSchemeChar).drop 3).dropWhile isHostChar with hr3
        rcases dropWhile_head_false notHashChar (rest3.dropWhile isPathChar)
          with h0 | ⟨e, t, het, hpe⟩
        · left; exact h0
        · right
          have he : e = '#' := by
            simpa [notHashChar] using hpe
          exact ⟨t, he ▸ het⟩

/-- Membership in the query-free core of a serialized URL comes from one of
the three components or a literal delimiter character. -/
theorem mem_serialize_core {c : Char} {sch hst pth : List Char}
    (h : c ∈ sch ++ [':', '/', '/'] ++ hst ++ pth) :
    c ∈ sch ∨ c ∈ hst ∨ c ∈ pth ∨ c = ':' ∨ c = '/' := by
  simp only [List.append_assoc, List.mem_append, List.mem_cons,
    List.not_mem_nil, or_false] at h
  tauto

/-- Shape of every `addEmbedParameter` result: a block of characters free of
`?` and `#`, followed by the literal query `?embed=true`. -/
theorem addEmbed_shape (cs : List Char) :
    ∃ b, addEmbedParameterChars cs = b ++ embedQuery ∧
      ∀ c ∈ b, isPathChar c = true := by
  unfold addEmbedParameterChars
  cases hp : parseURLChars cs with
  | none =>
    refine ⟨cs.takeWhile isPathChar, rfl, ?_⟩
    intro c hc
    exact List.mem_takeWhile_imp hc
  | some r =>
    obtain ⟨_, hsch, _, hhost, _, hpath, _, _, _⟩ := parse_some_spec hp
    refine ⟨r.scheme ++ [':', '/', '/'] ++ r.host ++ r.pathname, ?_, ?_⟩
    · simp [serializeURL]
    · intro c hc
      rcases mem_serialize_core hc with hc | hc | hc | rfl | rfl
      · exact isSchemeChar_path c (hsch c hc)
      · exact isHostChar_path c (hhost c hc)
      · exact hpath c hc
      · decide
      · decide

/-- `addEmbedParameter` leaves its own outputs unchanged: a clean block
followed by `?embed=true` is a fixed point. -/
theorem addEmbed_fix (b : List Char) (hb : ∀ c ∈ b, isPathChar c = true) :
    addEmbedParameterChars (b ++ embedQuery) = b ++ embedQuery := by
  unfold addEmbedParameterChars
  cases hp : parseURLChars (b ++ embedQuery) with
  | none =>
    have ht : (b ++ embedQuery).takeWhile isPathChar = b := by
      rw [show embedQuery = '?' :: "embed=true".data from rfl]
      exact takeWhile_append_stop hb (by decide)
    rw [ht]
  | some r =>
    obtain ⟨hdec, hsch, _, hhost, _, hpath, hsearch, hsshape, hhshape⟩ :=
      parse_some_spec hp
    have hnoq : ∀ c ∈ r.scheme ++ [':', '/', '/'] ++ r.host ++ r.pathname, c ≠ '?' := by
      intro c hc
      rcases mem_serialize_core hc with hc | hc | hc | rfl | rfl
      · exact ((isPathChar_iff c).mp (isSchemeChar_path c (hsch c hc))).1
      · exact ((isPathChar_iff c).mp (isHostChar_path c (hhost c hc))).1
      · exact ((isPathChar_iff c).mp (hpath c hc)).1
      · decide
      · decide
    have hnh : ∀ c ∈ b ++ embedQuery, c ≠ '#' := by
      intro c hc
      rcases List.mem_append.mp hc with hc | hc
      · exact ((isPathChar_iff c).mp (hb c hc)).2
      · have hall : ∀ x ∈ ('?' :: "embed=true".data : List Char), x ≠ '#' := by decide
        rw [show embedQuery = '?' :: "embed=true".data from rfl] at hc
        exact hall c hc
    have hhash : r.hash = [] := by
      rcases hhshape with h0 | ⟨t, ht⟩
      · exact h0
      · exfalso
        have : '#' ∈ b ++ embedQuery := by
          rw [hdec]
          simp only [serializeURL, List.append_assoc, List.mem_append]
          refine Or.inr (Or.inr (Or.inr (Or.inr (Or.inr ?_))))
          rw [ht]
          exact List.mem_cons_self '#' t
        exact hnh '#' this rfl
    rcases hsshape with hs0 | ⟨t, ht⟩
    · exfalso
      have hq : '?' ∈ b ++ embedQuery := by
        rw [show embedQuery = '?' :: "embed=true".data from rfl]
        simp
      rw [hdec] at hq
      simp only [serializeURL, hs0, hhash, List.append_nil] at hq
      have hq2 : '?' ∈ r.scheme ++ [':', '/', '/'] ++ r.host ++ r.pathname := by
        simpa [List.append_assoc] using hq
      exact hnoq '?' hq2 rfl
    · have hdec2 : b ++ '?' :: "embed=true".data =
          (r.scheme ++ [':', '/', '/'] ++ r.host ++ r.pathname) ++ '?' :: (t ++ r.hash) := by
        rw [show ('?' :: "embed=true".data : List Char) = embedQuery from rfl, hdec]
        simp [serializeURL, ht, List.append_assoc]
      have hbq : '?' ∉ b := fun hm => ((isPathChar_iff '?').mp (hb '?' hm)).1 rfl
      have hcq : '?' ∉ r.scheme ++ [':', '/', '/'] ++ r.host ++ r.pathname :=
        fun hm => hnoq '?' hm rfl
      obtain ⟨hB, hT⟩ := append_cons_eq_of_not_mem hdec2 hbq hcq
      rw [hhash, List.append_nil] at hT
      simp only [serializeURL]
      rw [show ({ r with search := embedQuery, hash := [] } : URLRec).scheme = r.scheme from rfl]
      rw [hB]
      simp [embedQuery, List.append_assoc]

/-- `findOptionIdx` finds the first matching option: when some option carries
the requested value, it returns an index that points at an option with that
value. -/
theorem findOptionIdx_spec (v : String) :
    ∀ (l : List OptionEl), (∃ o ∈ l, o.value = v) →
      ∃ i o, findOptionIdx v l = some i ∧ l[i]? = some o ∧ o.value = v := by
  intro l
  induction l with
  | nil =>
    rintro ⟨o, ho, _⟩
    exact absurd ho (List.not_mem_nil o)
  | cons a t ih =>
    rintro ⟨o, ho, hov⟩
    by_cases ha : (a.value == v) = true
    · refine ⟨0, a, ?_, by simp, by simpa using ha⟩
      simp [findOptionIdx, ha]
    · have hot : o ∈ t := by
        rcases List.mem_cons.mp ho with rfl | h2
        · exact absurd (by simpa using hov) ha
        · exact h2
      obtain ⟨i, o2, hfi, hgi, ho2⟩ := ih ⟨o, hot, hov⟩
      refine ⟨i + 1, o2, ?_, by simpa using hgi, ho2⟩
      simp [findOptionIdx, ha, hfi]

/-- Assigning an available value to a `select` makes that value its current
value. -/
theorem setValue_value (sel : SelectEl) (v : String)
    (h : ∃ o ∈ sel.options, o.value = v) :
    (sel.setValue v).value = v := by
  obtain ⟨i, o, hfi, hgi, hov⟩ := findOptionIdx_spec v sel.options h
  unfold SelectEl.setValue SelectEl.value
  simp only [hfi, hgi]
  exact hov

/-- C2: for every input string, the result of `addEmbedParameter` carries
exactly one `embed` query parameter, whose value is `true`, and no fragment:
its query string is literally `embed=true`, no `#` occurs anywhere in it, and
`?` occurs exactly once — on the success path and on the textual fallback
path alike. -/
theorem addEmbedParameter_single_embed_no_fragment (u : String) :
    queryString (addEmbedParameter u) = "embed=true" ∧
    (∀ c ∈ (addEmbedParameter u).data, c ≠ '#') ∧
    (addEmbedParameter u).data.count '?' = 1 := by
  obtain ⟨b, hb, hpc⟩ := addEmbed_shape u.data
  have hdata : (addEmbedParameter u).data = b ++ '?' :: "embed=true".data := by
    show addEmbedParameterChars u.data = _
    rw [hb]
    rfl
  have hq : ∀ c ∈ b, (!(c == '?')) = true := by
    intro c hc
    have := ((isPathChar_iff c).mp (hpc c hc)).1
    simpa using this
  refine ⟨?_, ?_, ?_⟩
  · unfold queryString
    rw [hdata, dropWhile_append_stop hq (by decide)]
    rfl
  · intro c hc
    rw [hdata] at hc
    rcases List.mem_append.mp hc with hc | hc
    · exact ((isPathChar_iff c).mp (hpc c hc)).2
    · have hall : ∀ x ∈ ('?' :: "embed=true".data : List Char), x ≠ '#' := by decide
      exact hall c hc
  · rw [hdata, List.count_append]
    have h0 : b.count '?' = 0 := by
      rw [List.count_eq_zero]
      intro hm
      exact ((isPathChar_iff '?').mp (hpc '?' hm)).1 rfl
    rw [h0]
    decide

/-- C3: `addEmbedParameter` is idempotent — applying it twice yields the same
string as applying it once, including when the first application took the
parse-failure fallback path. -/
theorem addEmbedParameter_idempotent (u : String) :
    addEmbedParameter (addEmbedParameter u) = addEmbedParameter u := by
  obtain ⟨b, hb, hpc⟩ := addEmbed_shape u.data
  show (⟨addEmbedParameterChars (addEmbedParameterChars u.data)⟩ : String) =
    ⟨addEmbedParameterChars u.data⟩
  rw [hb, addEmbed_fix b hpc]

/-- C4: `normalizeDimension` appends `px` to every string of one or more
decimal digits, returns every other string unchanged (percent and viewport
units, signs, dots, whitespace), and never synthesizes a default for empty
input. -/
theorem normalizeDimension_px_iff_digits (s : String) :
    ((s.data ≠ [] ∧ ∀ c ∈ s.data, c.isDigit = true) →
      normalizeDimension s = s ++ "px") ∧
    ((s.data = [] ∨ ∃ c ∈ s.data, c.isDigit = false) →
      normalizeDimension s = s) := by
  constructor
  · rintro ⟨hne, hall⟩
    unfold normalizeDimension
    rw [if_pos ⟨hne, List.all_eq_true.mpr hall⟩]
  · rintro (h0 | ⟨c, hc, hcd⟩)
    · unfold normalizeDimension
      rw [if_neg]
      rintro ⟨hne, _⟩
      exact hne h0
    · unfold normalizeDimension
      rw [if_neg]
      rintro ⟨_, hall⟩
      have := List.all_eq_true.mp hall c hc
      rw [hcd] at this
      exact Bool.false_ne_true this

/-- Witness for C4 at concrete inputs: a digit string gains `px`, a percent
string and a whitespace-only string pass through unchanged. -/
theorem normalizeDimension_px_iff_digits_witness :
    normalizeDimension "375" = "375" ++ "px" ∧
    normalizeDimension "100%" = "100%" ∧
    normalizeDimension " " = " " :=
  ⟨(normalizeDimension_px_iff_digits "375").1 (by decide),
   (normalizeDimension_px_iff_digits "100%").2 (by decide),
   (normalizeDimension_px_iff_digits " ").2 (by decide)⟩

/-- An empty current selection makes `generateEmbedCode` return the empty
string before any other field is consulted. -/
theorem generateEmbedCode_empty (pg : PageEnv) (st : ControllerState)
    (h : st.currentStoryUrl = "") : generateEmbedCode pg st = "" := by
  unfold generateEmbedCode
  rw [if_pos h]

/-- C1: whenever the current selection URL is empty, `generateEmbedCode`
returns the empty string; and the full empty-selection invariant — blank
share URL field, blank embed textarea, both copy buttons disabled — is
re-established by both transitions that can empty the selection:
`handlePanelOpen` in a catalog context (share-tab selector present) and
`handleStoryChange` carrying the placeholder value. -/
theorem emptySelection_invariant (pg : PageEnv) (st : ControllerState) :
    (st.currentStoryUrl = "" → generateEmbedCode pg st = "") ∧
    (st.shareStorySelect.isSome = true →
      (handlePanelOpen pg st).currentStoryUrl = "" ∧
      (∀ v, (handlePanelOpen pg st).shareUrlInput = some v → v = "") ∧
      (∀ v, (handlePanelOpen pg st).embedCodeTextarea = some v → v = "") ∧
      (∀ b, (handlePanelOpen pg st).shareCopyLinkBtnDisabled = some b → b = true) ∧
      (∀ b, (handlePanelOpen pg st).embedCopyCodeBtnDisabled = some b → b = true) ∧
      generateEmbedCode pg (handlePanelOpen pg st) = "") ∧
    (∀ src,
      (handleStoryChange src "" pg st).currentStoryUrl = "" ∧
      (∀ v, (handleStoryChange src "" pg st).shareUrlInput = some v → v = "") ∧
      (∀ v, (handleStoryChange src "" pg st).embedCodeTextarea = some v → v = "") ∧
      (∀ b, (handleStoryChange src "" pg st).shareCopyLinkBtnDisabled = some b → b = true) ∧
      (∀ b, (handleStoryChange src "" pg st).embedCopyCodeBtnDisabled = some b → b = true) ∧
      generateEmbedCode pg (handleStoryChange src "" pg st) = "") := by
  refine ⟨fun h => generateEmbedCode_empty pg st h, fun hs => ?_, fun src => ?_⟩
  · unfold handlePanelOpen
    rw [if_pos hs]
    refine ⟨rfl, ?_, ?_, ?_, ?_, ?_⟩
    · intro v hv
      cases h2 : st.shareUrlInput with
      | none => simp [updateEmbedCode, updateShareUrl, h2] at hv
      | some a =>
        simp [updateEmbedCode, updateShareUrl, h2] at hv
        exact hv.symm
    · intro v hv
      cases h2 : st.embedCodeTextarea with
      | none => simp [updateEmbedCode, updateShareUrl, h2] at hv
      | some a =>
        simp [updateEmbedCode, updateShareUrl, generateEmbedCode, h2] at hv
        exact hv.symm
    · intro b hb
      cases h2 : st.shareCopyLinkBtnDisabled with
      | none => simp [updateEmbedCode, updateShareUrl, h2] at hb
      | some a =>
        simp [updateEmbedCode, updateShareUrl, h2] at hb
        exact hb
    · intro b hb
      cases h2 : st.embedCopyCodeBtnDisabled with
      | none => simp [updateEmbedCode, updateShareUrl, h2] at hb
      | some a =>
        simp [updateEmbedCode, updateShareUrl, h2] at hb
        exact hb
    · exact generateEmbedCode_empty pg _ rfl
  · unfold handleStoryChange
    refine ⟨rfl, ?_, ?_, ?_, ?_, ?_⟩
    · intro v hv
      cases h2 : st.shareUrlInput with
      | none => simp [updateEmbedCode, updateShareUrl, h2] at hv
      | some a =>
        simp [updateEmbedCode, updateShareUrl, h2] at hv
        exact hv.symm
    · intro v hv
      cases h2 : st.embedCodeTextarea with
      | none => simp [updateEmbedCode, updateShareUrl, h2] at hv
      | some a =>
        simp [updateEmbedCode, updateShareUrl, generateEmbedCode, h2] at hv
        exact hv.symm
    · intro b hb
      cases h2 : st.shareCopyLinkBtnDisabled with
      | none => simp [updateEmbedCode, updateShareUrl, h2] at hb
      | some a =>
        simp [updateEmbedCode, updateShareUrl, h2] at hb
        exact hb
    · intro b hb
      cases h2 : st.embedCopyCodeBtnDisabled with
      | none => simp [updateEmbedCode, updateShareUrl, h2] at hb
      | some a =>
        simp [updateEmbedCode, updateShareUrl, h2] at hb
        exact hb
    · exact generateEmbedCode_empty pg _ rfl

/-- Witness for C1: the invariant theorem applied at concrete states — an
empty selection yields an empty embed code, and both emptying transitions
leave an empty selection behind. -/
theorem emptySelection_invariant_witness :
    generateEmbedCode samplePage sampleSingleState = "" ∧
    (handlePanelOpen samplePage sampleCatalogState).currentStoryUrl = "" ∧
    (handleStoryChange "embed-story-select" "" samplePage sampleCatalogState).currentStoryUrl = "" :=
  ⟨(emptySelection_invariant samplePage sampleSingleState).1 rfl,
   ((emptySelection_invariant samplePage sampleCatalogState).2.1 rfl).1,
   ((emptySelection_invariant samplePage sampleCatalogState).2.2 "embed-story-select").1⟩

/-- C5 (amended): `handlePresetChange` overwrites both dimension fields with
exactly the pair of the fixed preset table for each of the seven known keys
and recomputes the embed snippet from the overwritten dimensions; a key that
is neither a table key nor an `Object.prototype` property key (so `custom`
and the empty string in particular) is a complete no-op; but a key naming an
inherited `Object.prototype` property takes the truthy branch, overwrites
both dimension fields with the string `undefined`, and recomputes. -/
theorem presetChosen_table (pg : PageEnv) (st : ControllerState) :
    ((handlePresetChange "canvas" pg st).embedWidthInput = "100%" ∧
     (handlePresetChange "canvas" pg st).embedHeightInput = "800") ∧
    ((handlePresetChange "moodle" pg st).embedWidthInput = "100%" ∧
     (handlePresetChange "moodle" pg st).embedHeightInput = "700") ∧
    ((handlePresetChange "wordpress" pg st).embedWidthInput = "100%" ∧
     (handlePresetChange "wordpress" pg st).embedHeightInput = "600") ∧
    ((handlePresetChange "squarespace" pg st).embedWidthInput = "100%" ∧
     (handlePresetChange "squarespace" pg st).embedHeightInput = "600") ∧
    ((handlePresetChange "wix" pg st).embedWidthInput = "100%" ∧
     (handlePresetChange "wix" pg st).embedHeightInput = "550") ∧
    ((handlePresetChange "mobile" pg st).embedWidthInput = "375" ∧
     (handlePresetChange "mobile" pg st).embedHeightInput = "500") ∧
    ((handlePresetChange "fixed" pg st).embedWidthInput = "800" ∧
     (handlePresetChange "fixed" pg st).embedHeightInput = "600") ∧
    (∀ key wh, presetTable key = PresetLookup.own wh →
      (handlePresetChange key pg st).embedCodeTextarea =
        st.embedCodeTextarea.map (fun _ =>
          generateEmbedCode pg
            { st with embedWidthInput := wh.1, embedHeightInput := wh.2 })) ∧
    (∀ key, key ∉ (["canvas", "moodle", "wordpress", "squarespace", "wix",
        "mobile", "fixed"] : List String) → key ∉ objectProtoKeys →
      handlePresetChange key pg st = st) ∧
    (∀ key, key ∈ objectProtoKeys →
      (handlePresetChange key pg st).embedWidthInput = "undefined" ∧
      (handlePresetChange key pg st).embedHeightInput = "undefined" ∧
      (handlePresetChange key pg st).embedCodeTextarea =
        st.embedCodeTextarea.map (fun _ =>
          generateEmbedCode pg
            { st with embedWidthInput := "undefined",
                      embedHeightInput := "undefined" })) := by
  refine ⟨⟨rfl, rfl⟩, ⟨rfl, rfl⟩, ⟨rfl, rfl⟩, ⟨rfl, rfl⟩, ⟨rfl, rfl⟩,
    ⟨rfl, rfl⟩, ⟨rfl, rfl⟩, ?_, ?_, ?_⟩
  · intro key wh h
    unfold handlePresetChange
    rw [h]
    rfl
  · intro key hk hp
    simp only [List.mem_cons, List.not_mem_nil, or_false, not_or] at hk
    obtain ⟨h1, h2, h3, h4, h5, h6, h7⟩ := hk
    have ha : presetTable key = PresetLookup.absent := by
      unfold presetTable
      rw [if_neg h1, if_neg h2, if_neg h3, if_neg h4, if_neg h5, if_neg h6,
        if_neg h7, if_neg hp]
    unfold handlePresetChange
    rw [ha]
  · intro key hk
    have h7 : key ∉ (["canvas", "moodle", "wordpress", "squarespace", "wix",
        "mobile", "fixed"] : List String) := by
      simp only [objectProtoKeys, List.mem_cons, List.not_mem_nil, or_false] at hk
      rcases hk with rfl | rfl | rfl | rfl | rfl | rfl | rfl | rfl | rfl | rfl
        | rfl | rfl <;> decide
    simp only [List.mem_cons, List.not_mem_nil, or_false, not_or] at h7
    obtain ⟨h1, h2, h3, h4, h5, h6, h7⟩ := h7
    have hi : presetTable key = PresetLookup.inherited := by
      unfold presetTable
      rw [if_neg h1, if_neg h2, if_neg h3, if_neg h4, if_neg h5, if_neg h6,
        if_neg h7, if_pos hk]
    unfold handlePresetChange
    rw [hi]
    exact ⟨rfl, rfl, rfl⟩

/-- Counterexample for C5 as originally stated: `constructor` is not one of
the seven table keys, yet `handlePresetChange` overwrites both dimension
fields with `undefined` and recomputes the embed textarea, because the JS
object-literal lookup finds a truthy `Object.prototype.constructor`. -/
theorem presetChosen_table_counterexample :
    "constructor" ∉ (["canvas", "moodle", "wordpress", "squarespace", "wix",
        "mobile", "fixed"] : List String) ∧
    (handlePresetChange "constructor" samplePage sampleCatalogState).embedWidthInput
      = "undefined" ∧
    (handlePresetChange "constructor" samplePage sampleCatalogState).embedHeightInput
      = "undefined" ∧
    (handlePresetChange "constructor" samplePage sampleCatalogState).embedCodeTextarea
      ≠ sampleCatalogState.embedCodeTextarea :=
  ⟨by decide, rfl, rfl, by decide⟩

/-- Witness for C5: the theorem applied at a concrete state — the `mobile`
preset installs 375 by 500, the key `custom` (neither a table key nor a
prototype property) changes nothing, and the inherited key `toString`
installs `undefined` in the width field. -/
theorem presetChosen_table_witness :
    ((handlePresetChange "mobile" samplePage sampleCatalogState).embedWidthInput = "375" ∧
     (handlePresetChange "mobile" samplePage sampleCatalogState).embedHeightInput = "500") ∧
    handlePresetChange "custom" samplePage sampleCatalogState = sampleCatalogState ∧
    (handlePresetChange "toString" samplePage sampleCatalogState).embedWidthInput
      = "undefined" :=
  ⟨(presetChosen_table samplePage sampleCatalogState).2.2.2.2.2.1,
   (presetChosen_table samplePage sampleCatalogState).2.2.2.2.2.2.2.2.1 "custom"
     (by decide) (by decide),
   ((presetChosen_table samplePage sampleCatalogState).2.2.2.2.2.2.2.2.2 "toString"
     (by decide)).1⟩

/-- C6: after a story-selection event from either selector widget, both
widgets (when both exist) hold the identical selected value.  The source
widget already carries the event value (the DOM sets the target's value
before the handler runs), and the sibling must offer an option with that
value, as it does whenever both widgets were populated from the same
catalog. -/
theorem storySelected_sync (pg : PageEnv) (st : ControllerState) (v : String) :
    (∀ src sib, st.shareStorySelect = some src → src.value = v →
      st.embedStorySelect = some sib → (∃ o ∈ sib.options, o.value = v) →
      (handleStoryChange "share-story-select" v pg st).shareStorySelect.map SelectEl.value
          = some v ∧
      (handleStoryChange "share-story-select" v pg st).embedStorySelect.map SelectEl.value
          = some v) ∧
    (∀ src sib, st.embedStorySelect = some src → src.value = v →
      st.shareStorySelect = some sib → (∃ o ∈ sib.options, o.value = v) →
      (handleStoryChange "embed-story-select" v pg st).embedStorySelect.map SelectEl.value
          = some v ∧
      (handleStoryChange "embed-story-select" v pg st).shareStorySelect.map SelectEl.value
          = some v) := by
  constructor
  · intro src sib hsrc hval hsib hopt
    have hsync : syncSelects "share-story-select" v st.shareStorySelect st.embedStorySelect
        = (st.shareStorySelect, some (sib.setValue v)) := by
      unfold syncSelects
      rw [if_pos rfl, hsib]
    have p1 : (handleStoryChange "share-story-select" v pg st).shareStorySelect
        = (syncSelects "share-story-select" v st.shareStorySelect st.embedStorySelect).1 := rfl
    have p2 : (handleStoryChange "share-story-select" v pg st).embedStorySelect
        = (syncSelects "share-story-select" v st.shareStorySelect st.embedStorySelect).2 := rfl
    rw [p1, p2, hsync, hsrc]
    exact ⟨by simp [hval], by simp [setValue_value sib v hopt]⟩
  · intro src sib hsrc hval hsib hopt
    have hsync : syncSelects "embed-story-select" v st.shareStorySelect st.embedStorySelect
        = (some (sib.setValue v), st.embedStorySelect) := by
      unfold syncSelects
      rw [if_neg (by decide), if_pos rfl, hsib]
    have p1 : (handleStoryChange "embed-story-select" v pg st).shareStorySelect
        = (syncSelects "embed-story-select" v st.shareStorySelect st.embedStorySelect).1 := rfl
    have p2 : (handleStoryChange "embed-story-select" v pg st).embedStorySelect
        = (syncSelects "embed-story-select" v st.shareStorySelect st.embedStorySelect).2 := rfl
    rw [p1, p2, hsync, hsrc]
    exact ⟨by simp [hval], by simp [setValue_value sib v hopt]⟩

/-- Witness for C6: the sync theorem applied at a concrete catalog state —
after selecting the story in the share-tab widget, both widgets report the
story URL as their value. -/
theorem storySelected_sync_witness :
    (handleStoryChange "share-story-select" "https://example.org/telar/a/"
        samplePage sampleCatalogState).shareStorySelect.map SelectEl.value
      = some "https://example.org/telar/a/" ∧
    (handleStoryChange "share-story-select" "https://example.org/telar/a/"
        samplePage sampleCatalogState).embedStorySelect.map SelectEl.value
      = some "https://example.org/telar/a/" :=
  (storySelected_sync samplePage sampleCatalogState "https://example.org/telar/a/").1
    ⟨[⟨"", "Select"⟩, ⟨"https://example.org/telar/a/", "Story A"⟩], some 1⟩
    ⟨[⟨"", "Select"⟩, ⟨"https://example.org/telar/a/", "Story A"⟩], some 0⟩
    rfl (by decide) rfl (by decide)

/-- C10: `handlePanelOpen` decides the context solely by the existence of the
share-tab selector: when it is absent — even with the embed-tab selector
present — the single-story branch runs, the selection becomes the page's own
URL, and neither copy control is touched (in contrast to the catalog branch,
which clears and disables). -/
theorem panelOpen_singleStory (pg : PageEnv) (st : ControllerState)
    (h1 : st.shareStorySelect = none) (_h2 : st.embedStorySelect.isSome = true) :
    (handlePanelOpen pg st).currentStoryUrl = pg.locationHref ∧
    (handlePanelOpen pg st).shareCopyLinkBtnDisabled = st.shareCopyLinkBtnDisabled ∧
    (handlePanelOpen pg st).embedCopyCodeBtnDisabled = st.embedCopyCodeBtnDisabled ∧
    (handlePanelOpen pg st).embedStorySelect = st.embedStorySelect := by
  have hc : ¬ (st.shareStorySelect.isSome = true) := by
    rw [h1]
    simp
  unfold handlePanelOpen
  rw [if_neg hc]
  exact ⟨rfl, rfl, rfl, rfl⟩

/-- Witness for C10: the single-story theorem applied at a concrete state
whose page only carries the embed-tab selector. -/
theorem panelOpen_singleStory_witness :
    (handlePanelOpen samplePage sampleSingleState).currentStoryUrl
      = "https://example.org/telar/a/" ∧
    (handlePanelOpen samplePage sampleSingleState).shareCopyLinkBtnDisabled
      = some false :=
  ⟨(panelOpen_singleStory samplePage sampleSingleState rfl rfl).1,
   (panelOpen_singleStory samplePage sampleSingleState rfl rfl).2.1⟩

/-- C7: `getStoryTitle` resolves the iframe title by exactly this priority:
the selected option label of the share-tab widget, then of the embed-tab
widget, then a catalog lookup of the current URL (first match wins, via
`find?`), then the `og:title` meta content, then the document title, then
the hardcoded fallback literal. -/
theorem getStoryTitle_priority (pg : PageEnv) (st : ControllerState) :
    (∀ t, st.shareStorySelect.bind selectedOptionTitle = some t →
      getStoryTitle pg st = t) ∧
    (st.shareStorySelect.bind selectedOptionTitle = none →
      (∀ t, st.embedStorySelect.bind selectedOptionTitle = some t →
        getStoryTitle pg st = t) ∧
      (st.embedStorySelect.bind selectedOptionTitle = none →
        (∀ s, st.currentStoryUrl ≠ "" →
          st.availableStories.find? (fun x => x.url == st.currentStoryUrl) = some s →
          getStoryTitle pg st = s.title) ∧
        ((st.currentStoryUrl = "" ∨
            st.availableStories.find? (fun x => x.url == st.currentStoryUrl) = none) →
          (∀ t, pg.ogTitle = some t → getStoryTitle pg st = t) ∧
          (pg.ogTitle = none →
            (pg.documentTitle ≠ "" → getStoryTitle pg st = pg.documentTitle) ∧
            (pg.documentTitle = "" → getStoryTitle pg st = "Telar Story"))))) := by
  constructor
  · intro t ht
    unfold getStoryTitle
    rw [ht]
  · intro h1
    constructor
    · intro t ht
      unfold getStoryTitle
      rw [h1, ht]
    · intro h2
      constructor
      · intro s hne hf
        have hpos : 0 < st.availableStories.length :=
          List.length_pos.mpr (List.ne_nil_of_mem (List.mem_of_find?_eq_some hf))
        unfold getStoryTitle
        rw [h1, h2, if_pos ⟨hne, hpos⟩, hf]
      · intro h3
        have hsc : (if st.currentStoryUrl ≠ "" ∧ 0 < st.availableStories.length
            then st.availableStories.find? (fun s => s.url == st.currentStoryUrl)
            else none) = none := by
          rcases h3 with h3 | h3
          · rw [if_neg]
            rintro ⟨hne, _⟩
            exact hne h3
          · by_cases hcond : st.currentStoryUrl ≠ "" ∧ 0 < st.availableStories.length
            · rw [if_pos hcond]
              exact h3
            · rw [if_neg hcond]
        constructor
        · intro t ht
          unfold getStoryTitle
          rw [h1, h2, hsc, ht]
        · intro h4
          constructor
          · intro h5
            unfold getStoryTitle
            rw [h1, h2, hsc, h4, if_pos h5]
          · intro h5
            unfold getStoryTitle
            rw [h1, h2, hsc, h4, if_neg (fun hne => hne h5)]

/-- Witness for C7: with no dropdown selection available, the title comes
from the catalog lookup of the current URL. -/
theorem getStoryTitle_priority_witness :
    getStoryTitle samplePage sampleNoSelectState = "Story A" :=
  (((getStoryTitle_priority samplePage sampleNoSelectState).2 rfl).2 rfl).1
    ⟨"https://example.org/telar/a/", "Story A"⟩ (by decide) (by decide)

/-- C8: when the clipboard promise rejects, `copyToClipboard` (whose
rejection continuation is a `catch` handler, so nothing escapes to the event
loop) logs the error and shows the manual-copy notice exactly when the text
is nonempty; it shows no success feedback, and on either outcome the
controller state is untouched. -/
theorem clipboardFailure_handling (st : ControllerState) (text : String) :
    (copyToClipboard text ClipboardOutcome.failure).errorLogged = true ∧
    ((copyToClipboard text ClipboardOutcome.failure).manualCopyNoticeShown = true
      ↔ text ≠ "") ∧
    (copyToClipboard text ClipboardOutcome.failure).successFeedbackShown = false ∧
    (∀ o, (copyToClipboardStep st text o).1 = st) := by
  refine ⟨rfl, ?_, rfl, fun o => rfl⟩
  show (!(text == "")) = true ↔ text ≠ ""
  simp

/-- C9: with a zero-entry catalog — the JSON parsed to an empty array, or
parsing threw so the selectors are never repopulated — both selector
widgets' option lists are left completely untouched: no clearing, no
placeholder insertion. -/
theorem emptyCatalog_leaves_selectors (placeholderLabel : String)
    (stories0 : List StoryRef) (shareSel embedSel : Option SelectEl) :
    loadAvailableStories (some (some [])) placeholderLabel stories0 shareSel embedSel
      = ([], shareSel, embedSel) ∧
    loadAvailableStories (some none) placeholderLabel stories0 shareSel embedSel
      = (stories0, shareSel, embedSel) ∧
    populateStorySelectors [] placeholderLabel shareSel embedSel
      = (shareSel, embedSel) :=
  ⟨rfl, rfl, rfl⟩

/-- Witness for C2: the query-shape theorem applied at a concrete URL that
carries both a query and a fragment, with the membership hypothesis of the
no-fragment conjunct discharged at a concrete character. -/
theorem addEmbedParameter_single_embed_no_fragment_witness :
    queryString (addEmbedParameter "https://example.org/telar/a/?p=1#x")
      = "embed=true" ∧
    ('t' : Char) ≠ '#' ∧
    (addEmbedParameter "https://example.org/telar/a/?p=1#x").data.count '?' = 1 :=
  ⟨(addEmbedParameter_single_embed_no_fragment "https://example.org/telar/a/?p=1#x").1,
   (addEmbedParameter_single_embed_no_fragment "https://example.org/telar/a/?p=1#x").2.1
     't' (by decide),
   (addEmbedParameter_single_embed_no_fragment "https://example.org/telar/a/?p=1#x").2.2⟩

/-- Witness for C8: the failure-handling theorem applied at a concrete state
and text, with the nonemptiness direction of the notice equivalence
discharged concretely. -/
theorem clipboardFailure_handling_witness :
    (copyToClipboard "https://example.org/telar/a/" ClipboardOutcome.failure).errorLogged
      = true ∧
    (copyToClipboard "https://example.org/telar/a/" ClipboardOutcome.failure).manualCopyNoticeShown
      = true ∧
    (copyToClipboardStep sampleCatalogState "https://example.org/telar/a/"
      ClipboardOutcome.failure).1 = sampleCatalogState :=
  ⟨(clipboardFailure_handling sampleCatalogState "https://example.org/telar/a/").1,
   ((clipboardFailure_handling sampleCatalogState "https://example.org/telar/a/").2.1).mpr
     (by decide),
   (clipboardFailure_handling sampleCatalogState "https://example.org/telar/a/").2.2.2
     ClipboardOutcome.failure⟩
